import Mathlib

/-!
Verification of the codex-mcp server (src/server.js) against its
natural-language specification.

The development is a shallow embedding of server.js:

* a JSON value type and a JSON parser modelling the behaviour of
  JSON.parse on single lines (section 1);
* the per-line event extractor of runCodexJsonl, i.e. the
  stdoutRl.on line handler together with the close handler
  (section 2), including the regex fallback for the session id;
* the three tool command builders runCodexStart, runCodexResume and
  runCodexReview as functions from (optional) parameters to a
  pipeline step, which is either a pre-spawn rejection or a spawn
  request carrying the argument vector (section 3); absent argument
  vector entries are coerced to the literal string undefined, as the
  Node spawn layer does;
* the JSON-RPC dispatcher handleToolCall and the rl.on line handler,
  modelled as a function from a parsed inbound frame and a description
  of the external process behaviour to the emitted responses and the
  updated session registry (section 4).

Subprocess behaviour is abstracted as the list of stdout lines the
child produces together with its exit event, since the external codex
binary is outside the repository.
-/

/-! ## Section 1: JSON values and JSON.parse -/

mutual

/-- JSON values as produced by JSON.parse in server.js.  Numbers keep
their source text, since no arithmetic is ever performed on them; the
only question ever asked of a number is JS truthiness. -/
inductive Json where
  | null : Json
  | jbool : Bool → Json
  | num : String → Json
  | str : String → Json
  | arr : JsonList → Json
  | obj : JsonFields → Json
deriving DecidableEq

/-- A list of JSON values (array elements). -/
inductive JsonList where
  | nil : JsonList
  | cons : Json → JsonList → JsonList
deriving DecidableEq

/-- The fields of a JSON object, in source order. -/
inductive JsonFields where
  | nil : JsonFields
  | cons : String → Json → JsonFields → JsonFields
deriving DecidableEq

end

/-- JSON whitespace characters (space, tab, line feed, carriage return). -/
def jsonWs (c : Char) : Bool :=
  c = ' ' || c = '\t' || c = '\n' || c = '\r'

/-- Value of a hexadecimal digit, if any. -/
def hexVal (c : Char) : Option Nat :=
  if '0' ≤ c ∧ c ≤ '9' then some (c.toNat - '0'.toNat)
  else if 'a' ≤ c ∧ c ≤ 'f' then some (c.toNat - 'a'.toNat + 10)
  else if 'A' ≤ c ∧ c ≤ 'F' then some (c.toNat - 'A'.toNat + 10)
  else none

/-- Single-character JSON string escapes. -/
def escChar (c : Char) : Option Char :=
  if c = '\x22' then some '\x22'
  else if c = '\\' then some '\\'
  else if c = '/' then some '/'
  else if c = 'b' then some '\x08'
  else if c = 'f' then some '\x0c'
  else if c = 'n' then some '\n'
  else if c = 'r' then some '\r'
  else if c = 't' then some '\t'
  else none

/-- Body of a JSON string after the opening quote: returns the decoded
characters and the remaining input after the closing quote. -/
def strBodyAux : List Char → Option (List Char × List Char)
  | [] => none
  | c :: cs =>
    if c = '\x22' then some ([], cs)
    else if c = '\\' then
      match cs with
      | e :: cs2 =>
        if e = 'u' then
          match cs2 with
          | h1 :: h2 :: h3 :: h4 :: cs3 =>
            match hexVal h1, hexVal h2, hexVal h3, hexVal h4 with
            | some a, some b, some c4, some d =>
              (strBodyAux cs3).map
                (fun p => (Char.ofNat (((a * 16 + b) * 16 + c4) * 16 + d) :: p.1, p.2))
            | _, _, _, _ => none
          | _ => none
        else
          match escChar e with
          | some ch => (strBodyAux cs2).map (fun p => (ch :: p.1, p.2))
          | none => none
      | [] => none
    else if c.toNat < 32 then none
    else (strBodyAux cs).map (fun p => (c :: p.1, p.2))

/-- Parse a JSON number token, returning its source text. -/
def parseNumber (cs : List Char) : Option (String × List Char) :=
  let sp := match cs with
    | '-' :: r => ("-", r)
    | _ => ("", cs)
  let ip := sp.2.takeWhile Char.isDigit
  let cs2 := sp.2.dropWhile Char.isDigit
  if ip = [] then none
  else if ip.head? = some '0' ∧ ip.length ≠ 1 then none
  else
    let fp : String × List Char :=
      match cs2 with
      | '.' :: r =>
        let ds := r.takeWhile Char.isDigit
        if ds = [] then ("", cs2)
        else ("." ++ String.mk ds, r.dropWhile Char.isDigit)
      | _ => ("", cs2)
    let ep : String × List Char :=
      match fp.2 with
      | e :: r =>
        if e = 'e' ∨ e = 'E' then
          let sr : String × List Char :=
            match r with
            | '+' :: rr => ("+", rr)
            | '-' :: rr => ("-", rr)
            | _ => ("", r)
          let ds := sr.2.takeWhile Char.isDigit
          if ds = [] then ("", fp.2)
          else (String.singleton e ++ sr.1 ++ String.mk ds, sr.2.dropWhile Char.isDigit)
        else ("", fp.2)
      | [] => ("", fp.2)
    some (sp.1 ++ String.mk ip ++ fp.1 ++ ep.1, ep.2)

mutual

/-- Parse one JSON value (fuelled recursion; fuel bounds nesting). -/
def parseVal : Nat → List Char → Option (Json × List Char)
  | 0, _ => none
  | Nat.succ fuel, cs0 =>
    let cs := cs0.dropWhile jsonWs
    match cs with
    | '\x7b' :: rest =>
      let rest2 := rest.dropWhile jsonWs
      (match rest2 with
       | '\x7d' :: rest3 => some (Json.obj .nil, rest3)
       | _ => (parseMembers fuel rest2).map (fun p => (Json.obj p.1, p.2)))
    | '[' :: rest =>
      let rest2 := rest.dropWhile jsonWs
      (match rest2 with
       | ']' :: rest3 => some (Json.arr .nil, rest3)
       | _ => (parseElems fuel rest2).map (fun p => (Json.arr p.1, p.2)))
    | '\x22' :: rest => (strBodyAux rest).map (fun p => (Json.str (String.mk p.1), p.2))
    | 't' :: 'r' :: 'u' :: 'e' :: rest => some (Json.jbool true, rest)
    | 'f' :: 'a' :: 'l' :: 's' :: 'e' :: rest => some (Json.jbool false, rest)
    | 'n' :: 'u' :: 'l' :: 'l' :: rest => some (Json.null, rest)
    | _ => (parseNumber cs).map (fun p => (Json.num p.1, p.2))

/-- Parse the members of a JSON object (after any leading whitespace,
positioned at the first key). -/
def parseMembers : Nat → List Char → Option (JsonFields × List Char)
  | 0, _ => none
  | Nat.succ fuel, cs =>
    match cs with
    | '\x22' :: rest =>
      match strBodyAux rest with
      | none => none
      | some (kcs, r1) =>
        match r1.dropWhile jsonWs with
        | ':' :: r2 =>
          match parseVal fuel r2 with
          | none => none
          | some (v, r3) =>
            (match r3.dropWhile jsonWs with
             | ',' :: r4 =>
               (parseMembers fuel (r4.dropWhile jsonWs)).map
                 (fun p => (JsonFields.cons (String.mk kcs) v p.1, p.2))
             | '\x7d' :: r4 => some (JsonFields.cons (String.mk kcs) v .nil, r4)
             | _ => none)
        | _ => none
    | _ => none

/-- Parse the elements of a JSON array (positioned at the first element). -/
def parseElems : Nat → List Char → Option (JsonList × List Char)
  | 0, _ => none
  | Nat.succ fuel, cs =>
    match parseVal fuel cs with
    | none => none
    | some (v, r1) =>
      match r1.dropWhile jsonWs with
      | ',' :: r2 => (parseElems fuel r2).map (fun p => (JsonList.cons v p.1, p.2))
      | ']' :: r2 => some (JsonList.cons v .nil, r2)
      | _ => none

end

/-- JSON.parse on a whole string: one value, with only whitespace allowed
around it; anything else is a parse failure (which server.js swallows). -/
def parseJson (s : String) : Option Json :=
  match parseVal (s.length + 1) s.toList with
  | some (j, rest) => if rest.dropWhile jsonWs = [] then some j else none
  | none => none

/-- A JSON number literal denotes zero iff every mantissa character is a
zero digit (signs, the decimal point and the exponent are irrelevant). -/
def jsonNumIsZero (raw : String) : Bool :=
  (raw.toList.takeWhile (fun c => c ≠ 'e' ∧ c ≠ 'E')).all
    (fun c => c = '-' || c = '0' || c = '.')

/-- JS truthiness of a JSON value. -/
def truthy : Json → Bool
  | Json.null => false
  | Json.jbool b => b
  | Json.num raw => ! jsonNumIsZero raw
  | Json.str s => ! (s == "")
  | Json.arr _ => true
  | Json.obj _ => true

/-- JS truthiness of a possibly-undefined value (none = undefined). -/
def truthyO : Option Json → Bool
  | none => false
  | some j => truthy j

/-- Last binding of a key in an object literal: JSON.parse keeps the last
duplicate, so lookup prefers later fields. -/
def JsonFields.lookupLast : JsonFields → String → Option Json
  | JsonFields.nil, _ => none
  | JsonFields.cons k0 v rest, k =>
    match JsonFields.lookupLast rest k with
    | some v2 => some v2
    | none => if k0 = k then some v else none

/-- Property access json.key: a field of an object, undefined otherwise
(primitives and arrays have none of the accessed properties). -/
def getField (j : Json) (k : String) : Option Json :=
  match j with
  | Json.obj fs => fs.lookupLast k
  | _ => none

/-- Optional chaining v?.key on a possibly-undefined value: undefined when
the receiver is undefined or null. -/
def optChain (v : Option Json) (k : String) : Option Json :=
  match v with
  | none => none
  | some Json.null => none
  | some j => getField j k

/-! ## Section 2: the event extractor of runCodexJsonl -/

/-- Whitespace removed by the JS string trim method (restricted to the
ASCII whitespace characters, which are the only ones relevant here). -/
def jsWsChar (c : Char) : Bool :=
  c = ' ' || c = '\t' || c = '\n' || c = '\r' || c = '\x0b' || c = '\x0c'

/-- JS string trim: strip leading and trailing whitespace. -/
def jsTrim (s : String) : String :=
  String.mk (((s.toList.dropWhile jsWsChar).reverse.dropWhile jsWsChar).reverse)

/-- Mutable state of one runCodexJsonl call while its child runs:
rawOutput, sessionId and finalMessage (server.js lines 272 to 274).
sessionId none models the initial null. -/
structure ExtractState where
  rawOutput : String
  sessionId : Option Json
  finalMessage : Json
deriving DecidableEq

/-- Initial extractor state: empty transcript, null session id, empty
final message. -/
def initExtract : ExtractState :=
  ⟨"", none, Json.str ""⟩

/-- Does the parsed record announce a started thread with a truthy
thread_id (server.js line 284)? -/
def isThreadStarted (j : Json) : Bool :=
  (match getField j "type" with
   | some (Json.str s) => s == "thread.started"
   | _ => false)
  && truthyO (getField j "thread_id")

/-- Does the parsed record complete an agent message with truthy text
(server.js lines 288 to 292)? -/
def isAgentMessageDone (j : Json) : Bool :=
  (match getField j "type" with
   | some (Json.str s) => s == "item.completed"
   | _ => false)
  && (match optChain (getField j "item") "type" with
      | some (Json.str s) => s == "agent_message"
      | _ => false)
  && truthyO (optChain (getField j "item") "text")

/-- The agent message text json.item.text (meaningful when
isAgentMessageDone holds). -/
def agentText (j : Json) : Json :=
  (optChain (getField j "item") "text").getD Json.null

/-- One step of the stdoutRl.on line handler (server.js lines 276 to
298): append the raw line, then opportunistically parse it and update
sessionId and finalMessage. -/
def processLine (st : ExtractState) (line : String) : ExtractState :=
  let raw := st.rawOutput ++ line ++ "\n"
  let trimmed := jsTrim line
  if trimmed = "" then ⟨raw, st.sessionId, st.finalMessage⟩
  else
    match parseJson trimmed with
    | none => ⟨raw, st.sessionId, st.finalMessage⟩
    | some json =>
      let sid := if isThreadStarted json then getField json "thread_id" else st.sessionId
      let fm := if isAgentMessageDone json then agentText json else st.finalMessage
      ⟨raw, sid, fm⟩

/-- Extractor state after a full stdout stream. -/
def processLines (lines : List String) : ExtractState :=
  List.foldl processLine initExtract lines

/-- Characters matched by the regex class of lowercase hex digits and
hyphens, as in the fallback pattern of server.js line 318. -/
def uuidChar (c : Char) : Bool :=
  ('0' ≤ c && c ≤ '9') || ('a' ≤ c && c ≤ 'f') || c = '-'

/-- Characters matched by the delimiter class (double quote or colon)
between the thread_id token and the identifier. -/
def delimChar (c : Char) : Bool :=
  c = '\x22' || c = ':'

/-- Try the fallback pattern at the current position: the literal
thread_id, one or more delimiter characters, then exactly 36 characters
of the identifier class.  Mirrors the regex of server.js line 318; the
greedy delimiter run never needs backtracking because a delimiter
character is not in the identifier class. -/
def threadIdAt (cs : List Char) : Option String :=
  if ("thread_id".toList).isPrefixOf cs then
    let rest := cs.drop 9
    let run := rest.takeWhile delimChar
    let after := rest.dropWhile delimChar
    if run ≠ [] ∧ (after.take 36).length = 36 ∧ (after.take 36).all uuidChar then
      some (String.mk (after.take 36))
    else none
  else none

/-- Leftmost match of the fallback pattern over the whole transcript,
returning the captured 36-character identifier. -/
def findThreadId : List Char → Option String
  | [] => none
  | c :: cs =>
    match threadIdAt (c :: cs) with
    | some m => some m
    | none => findThreadId cs

/-- Session id after the structured capture and, when that is not
truthy, the single fallback scan of the raw transcript (server.js lines
317 to 322). -/
def fallbackSessionId (st : ExtractState) : Option Json :=
  if truthyO st.sessionId then st.sessionId
  else
    match findThreadId st.rawOutput.toList with
    | some m => some (Json.str m)
    | none => st.sessionId

/-- Display text of the resolved outcome: the final message when truthy,
otherwise the full raw transcript (server.js line 331). -/
def displayText (st : ExtractState) : Json :=
  if truthy st.finalMessage then st.finalMessage else Json.str st.rawOutput

/-- Resolved value of one successful runCodexJsonl call. -/
structure RunOutcome where
  sessionId : Json
  output : Json
deriving DecidableEq

/-- JS string interpolation of the exit code, which is null when the
child was terminated by a signal. -/
def jsCodeStr : Option Int → String
  | none => "null"
  | some n => toString n

/-- The close handler of runCodexJsonl (server.js lines 309 to 333):
non-zero exit rejects naming the code; then the fallback scan runs if
needed; a missing session id rejects; otherwise the call resolves with
the session id and the display text. -/
def closeOutcome (label : String) (code : Option Int) (st : ExtractState) :
    Except String RunOutcome :=
  if code ≠ some 0 then
    Except.error (label ++ " exited with code " ++ jsCodeStr code)
  else
    match fallbackSessionId st with
    | some sid =>
      if truthy sid then Except.ok ⟨sid, displayText st⟩
      else Except.error ("Could not extract session ID from " ++ label ++ " output")
    | none => Except.error ("Could not extract session ID from " ++ label ++ " output")

/-- Decidable equality for Except, used to evaluate outcomes on
concrete inputs. -/
instance {a b : Type} [DecidableEq a] [DecidableEq b] : DecidableEq (Except a b) := fun x y =>
  match x, y with
  | Except.ok u, Except.ok v =>
    if h : u = v then isTrue (by rw [h]) else isFalse (fun hc => h (by injection hc))
  | Except.error u, Except.error v =>
    if h : u = v then isTrue (by rw [h]) else isFalse (fun hc => h (by injection hc))
  | Except.ok _, Except.error _ => isFalse (fun hc => Except.noConfusion hc)
  | Except.error _, Except.ok _ => isFalse (fun hc => Except.noConfusion hc)

/-! ## Section 3: the tool command builders -/

/-- JS truthiness of a possibly-absent string parameter: an absent
(undefined) or empty string is falsy. -/
def truthyS : Option String → Bool
  | none => false
  | some s => ! (s == "")

/-- What a tool handler does before any external process exists:
either it rejects (a Promise.reject issued before runCodexJsonl is
called), or a child process is spawned with the given argument vector,
cwd option and label. -/
inductive PipelineStep where
  | reject : String → PipelineStep
  | spawn : List String → Option String → String → PipelineStep
deriving DecidableEq

/-- Parameters of a tool call (the arguments object).  Each field is a
string or absent; this mirrors the declared schemas, whose fields are
all strings.  A single record carries the union of the fields read by
the three handlers. -/
structure ToolArgs where
  prompt : Option String
  sessionId : Option String
  cwd : Option String
  mode : Option String
  base : Option String
  commit : Option String
deriving DecidableEq

/-- ToolArgs with every field absent. -/
def noArgs : ToolArgs :=
  ⟨none, none, none, none, none, none⟩

/-- Argument vector built by runCodexStart (server.js lines 178 to
190): exec, the prompt, always the read-only sandbox pair, the
working-directory pair only when cwd is truthy, then the JSON flag. -/
def startArgv (prompt : String) (cwd : Option String) : List String :=
  ["exec", prompt] ++ ["--sandbox", "read-only"]
    ++ (if truthyS cwd then ["-C", cwd.getD ""] else []) ++ ["--json"]

/-- How the spawn layer renders each argument vector entry: Node's
child_process.spawn coerces every entry with ToString when launching
the child, so an absent (undefined) entry becomes the literal string
undefined; present strings, empty ones included, pass verbatim. -/
def jsArgStr : Option String → String
  | none => "undefined"
  | some s => s

/-- The pre-spawn behaviour of runCodexStart (server.js lines 178 to
191): no validation is performed; the child is always spawned, with an
absent prompt reaching it as the coerced literal string undefined. -/
def runCodexStart (args : ToolArgs) : PipelineStep :=
  PipelineStep.spawn (startArgv (jsArgStr args.prompt) args.cwd) args.cwd "Codex"

/-- The pre-spawn behaviour of runCodexResume (server.js lines 204 to
210): no validation at all; the child is always spawned with the
argument vector exec --json resume sessionId prompt, no cwd option,
and absent entries coerced to the literal string undefined. -/
def runCodexResume (sessionId prompt : Option String) : PipelineStep :=
  PipelineStep.spawn ["exec", "--json", "resume", jsArgStr sessionId, jsArgStr prompt]
    none "Codex resume"

/-- Common prefix of every review argument vector (server.js lines 218
to 226): exec, the working-directory pair when truthy, then the JSON
flag followed by the review subcommand token. -/
def reviewPre (cwd : Option String) : List String :=
  ["exec"] ++ (if truthyS cwd then ["-C", cwd.getD ""] else []) ++ ["--json", "review"]

/-- The pre-spawn behaviour of runCodexReview (server.js lines 212 to
258): missing or falsy mode rejects; each mode checks its own extra
parameter before the spawn; an unrecognized non-empty mode rejects
naming the offending value. -/
def runCodexReview (args : Option ToolArgs) : PipelineStep :=
  match args with
  | none => PipelineStep.reject "codex-review requires mode"
  | some a =>
    match a.mode with
    | none => PipelineStep.reject "codex-review requires mode"
    | some m =>
      if m = "" then PipelineStep.reject "codex-review requires mode"
      else if m = "uncommitted" then
        PipelineStep.spawn (reviewPre a.cwd ++ ["--uncommitted"]) a.cwd "Codex review"
      else if m = "base" then
        if truthyS a.base then
          PipelineStep.spawn (reviewPre a.cwd ++ ["--base", a.base.getD ""]) a.cwd "Codex review"
        else PipelineStep.reject "mode=base requires base"
      else if m = "commit" then
        if truthyS a.commit then
          PipelineStep.spawn (reviewPre a.cwd ++ ["--commit", a.commit.getD ""]) a.cwd "Codex review"
        else PipelineStep.reject "mode=commit requires commit"
      else if m = "custom" then
        match a.prompt with
        | none => PipelineStep.reject "mode=custom requires prompt"
        | some p =>
          if jsTrim p = "" then PipelineStep.reject "mode=custom requires prompt"
          else PipelineStep.spawn (reviewPre a.cwd ++ [jsTrim p]) a.cwd "Codex review"
      else PipelineStep.reject ("Unknown review mode: " ++ m)

/-- Exit event of a spawned child: either the spawn failed after the
fact (the error event, e.g. executable not found), or the child closed
with an exit code (null when killed by a signal). -/
inductive ExitEvent where
  | spawnErr : String → ExitEvent
  | closed : Option Int → ExitEvent
deriving DecidableEq

/-- Observable behaviour of one spawned child process: the stdout lines
it produces, in order, and its exit event.  The external codex binary
is outside the repository, so runs are quantified over this data. -/
structure ProcWorld where
  lines : List String
  exitEvent : ExitEvent
deriving DecidableEq

/-- Effective working directory of the spawned child (server.js line
264): the cwd option when truthy, else the server process cwd. -/
def effectiveCwd (cwd : Option String) (serverCwd : String) : String :=
  if truthyS cwd then cwd.getD "" else serverCwd

/-- Settled result of the promise returned by runCodexJsonl for a given
pipeline step and child behaviour: rejections never reach a process; a
spawn error rejects with that error; otherwise the close handler
decides (server.js lines 260 to 335). -/
def runCodexJsonl (step : PipelineStep) (w : ProcWorld) : Except String RunOutcome :=
  match step with
  | PipelineStep.reject m => Except.error m
  | PipelineStep.spawn _ _ label =>
    match w.exitEvent with
    | ExitEvent.spawnErr m => Except.error m
    | ExitEvent.closed code => closeOutcome label code (processLines w.lines)

/-! ## Section 4: the JSON-RPC dispatcher and the session registry -/

/-- The params object of a tools/call frame: a tool name and an
arguments object, either possibly absent. -/
structure CallParams where
  name : Option String
  arguments : Option ToolArgs
deriving DecidableEq

/-- A parsed inbound JSON-RPC frame: id (absent for notifications),
method name, and the params object when present and destructurable. -/
structure RpcFrame where
  id : Option Int
  method : String
  params : Option CallParams
deriving DecidableEq

/-- Result payload of a successful response; tool calls carry the
display text and the session id of the run. -/
inductive RpcResult where
  | initResult : RpcResult
  | toolsListResult : RpcResult
  | toolContent : Json → Json → RpcResult
deriving DecidableEq

/-- An outbound JSON-RPC frame: either a result or an error, both
correlated by the request id. -/
inductive Response where
  | ok : Option Int → RpcResult → Response
  | err : Option Int → Int → String → Response
deriving DecidableEq

/-- Correlation id of a response. -/
def Response.rid : Response → Option Int
  | Response.ok i _ => i
  | Response.err i _ _ => i

/-- JS string interpolation of a possibly-undefined tool name. -/
def jsNameStr : Option String → String
  | none => "undefined"
  | some s => s

/-- Settled result of the awaited tool pipeline inside handleToolCall,
or none when the tool name matches no branch (server.js lines 146 to
171).  An absent arguments object makes the property accesses
args.prompt or args.sessionId throw, which the catch converts into an
internal error; codex-review tolerates an absent arguments object. -/
def toolCallRun (p : CallParams) (w : ProcWorld) : Option (Except String RunOutcome) :=
  match p.name with
  | some n =>
    if n = "codex" then
      some (match p.arguments with
        | none => Except.error "Cannot read properties of undefined (reading prompt)"
        | some a => runCodexJsonl (runCodexStart a) w)
    else if n = "codex-reply" then
      some (match p.arguments with
        | none => Except.error "Cannot read properties of undefined (reading sessionId)"
        | some a => runCodexJsonl (runCodexResume a.sessionId a.prompt) w)
    else if n = "codex-review" then
      some (runCodexJsonl (runCodexReview p.arguments) w)
    else none
  | none => none

/-- The single response emitted by handleToolCall (server.js lines 142
to 176): a two-part content payload on success, a -32603 error on any
pipeline failure, a -32602 error for an unknown tool. -/
def handleToolCall (id : Option Int) (p : CallParams) (w : ProcWorld) : Response :=
  match toolCallRun p w with
  | some (Except.ok r) => Response.ok id (RpcResult.toolContent r.output r.sessionId)
  | some (Except.error m) => Response.err id (-32603) m
  | none => Response.err id (-32602) ("Unknown tool: " ++ jsNameStr p.name)

/-- A record of the session registry: creation time and the initial
prompt (server.js lines 196 to 199). -/
structure SessionRecord where
  created : Nat
  initialPrompt : Option String
deriving DecidableEq

/-- The process-wide session registry (server.js line 21), a JS Map
from session id to record, modelled as its list of bindings. -/
abbrev SessionMap : Type :=
  List (Json × SessionRecord)

/-- JS Map.set: replace the value of an existing key in place, or
append a new binding. -/
def mapSet (m : SessionMap) (k : Json) (v : SessionRecord) : SessionMap :=
  match m with
  | [] => [(k, v)]
  | kv :: rest => if kv.1 = k then (k, v) :: rest else kv :: mapSet rest k v

/-- JS Map.has: does the registry hold a binding for the key? -/
def mapHasKey (m : SessionMap) (k : Json) : Bool :=
  m.any (fun kv => kv.1 = k)

/-- The session registry after one tools/call dispatch (server.js lines
191 to 201): only a codex call whose pipeline resolved successfully
inserts, keyed by the extracted session id. -/
def sessionsAfterToolCall (s : SessionMap) (p : CallParams) (w : ProcWorld)
    (now : Nat) : SessionMap :=
  match p.name, p.arguments with
  | some n, some a =>
    if n = "codex" then
      match runCodexJsonl (runCodexStart a) w with
      | Except.ok r => mapSet s r.sessionId ⟨now, a.prompt⟩
      | Except.error _ => s
    else s
  | _, _ => s

/-- The rl.on line dispatcher for one parsed inbound frame (server.js
lines 24 to 52): initialize and tools/list answer immediately,
initialized answers nothing, tools/call destructures params (throwing
to the silent outer catch when params is absent) and otherwise emits
exactly the handleToolCall response, and any other method answers a
method-not-found error.  Returns the updated registry and the emitted
responses. -/
def handleLine (s : SessionMap) (f : RpcFrame) (w : ProcWorld) (now : Nat) :
    SessionMap × List Response :=
  if f.method = "initialize" then (s, [Response.ok f.id RpcResult.initResult])
  else if f.method = "initialized" then (s, [])
  else if f.method = "tools/list" then (s, [Response.ok f.id RpcResult.toolsListResult])
  else if f.method = "tools/call" then
    match f.params with
    | none => (s, [])
    | some p => (sessionsAfterToolCall s p w now, [handleToolCall f.id p w])
  else (s, [Response.err f.id (-32601) "Method not found"])

/-- One dispatched inbound frame together with the behaviour of the
child process it may spawn and the clock value at completion. -/
structure TraceEvent where
  frame : RpcFrame
  world : ProcWorld
  now : Nat

/-- Session registry after a whole trace of dispatched frames, starting
from the empty registry the server boots with. -/
def runTrace (es : List TraceEvent) : SessionMap :=
  List.foldl (fun s e => (handleLine s e.frame e.world e.now).1) [] es

/-- The insertion a frame performs on the registry, if any: the key and
record exactly when the frame is a tools/call of the codex tool whose
pipeline resolved successfully. -/
def startInsertion (f : RpcFrame) (w : ProcWorld) (now : Nat) :
    Option (Json × SessionRecord) :=
  if f.method = "tools/call" then
    match f.params with
    | some p =>
      match p.name, p.arguments with
      | some n, some a =>
        if n = "codex" then
          match runCodexJsonl (runCodexStart a) w with
          | Except.ok r => some (r.sessionId, ⟨now, a.prompt⟩)
          | Except.error _ => none
        else none
      | _, _ => none
    | none => none
  else none

/-! ## Section 5: derived observation functions and probe inputs -/

/-- The agent message text a single stdout line contributes, if any:
the line must be non-blank, parse as JSON, and be a completed agent
message with truthy text. -/
def agentMessageOfLine (line : String) : Option Json :=
  if jsTrim line = "" then none
  else
    match parseJson (jsTrim line) with
    | none => none
    | some j => if isAgentMessageDone j then some (agentText j) else none

/-- The last agent message captured over a stream of lines (later
captures overwrite earlier ones). -/
def lastAgentMessage : List String → Option Json
  | [] => none
  | l :: rest =>
    match lastAgentMessage rest with
    | some t => some t
    | none => agentMessageOfLine l

/-- The raw transcript of a stream: every line verbatim, in order, each
followed by a newline. -/
def rawConcat : List String → String
  | [] => ""
  | l :: rest => l ++ "\n" ++ rawConcat rest

/-- A stdout transcript line that is not valid JSON but contains the
literal thread_id token, a quote-colon-quote delimiter run and a valid
36-character hyphenated lowercase-hex UUID. -/
def fallbackProbe : String :=
  "thread_id\":\"0199aaaa-bbbb-7ccc-8ddd-eeeeffff0000 tail"

/-- The UUID embedded in fallbackProbe. -/
def probeUuid : String :=
  "0199aaaa-bbbb-7ccc-8ddd-eeeeffff0000"

/-! ## Section 6: helper lemmas -/

theorem processLine_rawOutput (st : ExtractState) (l : String) :
    (processLine st l).rawOutput = st.rawOutput ++ (l ++ "\n") := by
  unfold processLine
  by_cases h : jsTrim l = ""
  · simp [h, String.append_assoc]
  · simp only [h, if_false]
    cases hp : parseJson (jsTrim l) <;> simp [String.append_assoc]

theorem processLine_finalMessage (st : ExtractState) (l : String) :
    (processLine st l).finalMessage
      = match agentMessageOfLine l with
        | some t => t
        | none => st.finalMessage := by
  unfold processLine agentMessageOfLine
  by_cases h : jsTrim l = ""
  · simp [h]
  · simp only [h, if_false]
    cases hp : parseJson (jsTrim l) with
    | none => simp
    | some j =>
      by_cases hg : isAgentMessageDone j = true <;> simp [hg]

theorem processLine_sessionId_inv (st : ExtractState) (l : String)
    (h : st.sessionId = none ∨ truthyO st.sessionId = true) :
    (processLine st l).sessionId = none
      ∨ truthyO (processLine st l).sessionId = true := by
  unfold processLine
  by_cases hb : jsTrim l = ""
  · simpa [hb] using h
  · simp only [hb, if_false]
    cases hp : parseJson (jsTrim l) with
    | none => simpa using h
    | some j =>
      by_cases hg : isThreadStarted j = true
      · right
        have : truthyO (getField j "thread_id") = true := by
          have hg2 := hg
          unfold isThreadStarted at hg2
          simp only [Bool.and_eq_true] at hg2
          exact hg2.2
        simpa [hg] using this
      · simpa [hg] using h

theorem foldl_rawOutput (lines : List String) (st : ExtractState) :
    (List.foldl processLine st lines).rawOutput = st.rawOutput ++ rawConcat lines := by
  induction lines generalizing st with
  | nil => simp [rawConcat]
  | cons l rest ih =>
    simp only [List.foldl_cons, rawConcat]
    rw [ih, processLine_rawOutput, String.append_assoc]

theorem foldl_finalMessage (lines : List String) (st : ExtractState) :
    (List.foldl processLine st lines).finalMessage
      = match lastAgentMessage lines with
        | some t => t
        | none => st.finalMessage := by
  induction lines generalizing st with
  | nil => simp [lastAgentMessage]
  | cons l rest ih =>
    simp only [List.foldl_cons, lastAgentMessage]
    rw [ih]
    cases hr : lastAgentMessage rest with
    | some t => simp
    | none => simp [processLine_finalMessage]

theorem foldl_sessionId_inv (lines : List String) (st : ExtractState)
    (h : st.sessionId = none ∨ truthyO st.sessionId = true) :
    (List.foldl processLine st lines).sessionId = none
      ∨ truthyO (List.foldl processLine st lines).sessionId = true := by
  induction lines generalizing st with
  | nil => simpa using h
  | cons l rest ih =>
    exact ih (processLine st l) (processLine_sessionId_inv st l h)

theorem sessionId_inv (lines : List String) :
    (processLines lines).sessionId = none
      ∨ truthyO (processLines lines).sessionId = true :=
  foldl_sessionId_inv lines initExtract (Or.inl rfl)

theorem agentMessageOfLine_truthy (l : String) (t : Json)
    (h : agentMessageOfLine l = some t) : truthy t = true := by
  unfold agentMessageOfLine at h
  by_cases hb : jsTrim l = ""
  · simp [hb] at h
  · simp only [hb, if_false] at h
    cases hp : parseJson (jsTrim l) with
    | none => simp [hp] at h
    | some j =>
      rw [hp] at h
      by_cases hg : isAgentMessageDone j = true
      · simp only [hg, if_true] at h
        have htr : truthyO (optChain (getField j "item") "text") = true := by
          unfold isAgentMessageDone at hg
          simp only [Bool.and_eq_true] at hg
          exact hg.2
        cases hoc : optChain (getField j "item") "text" with
        | none => rw [hoc] at htr; simp [truthyO] at htr
        | some v =>
          rw [hoc] at htr
          have : t = v := by
            have := h
            simp [agentText, hoc] at this
            exact this.symm
          rw [this]
          simpa [truthyO] using htr
      · simp [hg] at h

theorem lastAgentMessage_truthy (lines : List String) (t : Json)
    (h : lastAgentMessage lines = some t) : truthy t = true := by
  induction lines with
  | nil => simp [lastAgentMessage] at h
  | cons l rest ih =>
    unfold lastAgentMessage at h
    cases hr : lastAgentMessage rest with
    | some u => rw [hr] at h; exact ih (by rw [← (Option.some.injEq u t).mp h]; exact hr)
    | none => rw [hr] at h; exact agentMessageOfLine_truthy l t h

theorem threadIdAt_ne_empty (cs : List Char) (m : String)
    (h : threadIdAt cs = some m) : m ≠ "" := by
  unfold threadIdAt at h
  split at h
  · dsimp only at h
    split at h
    · rename_i hg
      injection h with h2
      intro he
      rw [← h2] at he
      have hnil : (((cs.drop 9).dropWhile delimChar).take 36) = [] :=
        congrArg String.data he
      rw [hnil] at hg
      simp at hg
    · exact absurd h (by simp)
  · exact absurd h (by simp)

theorem findThreadId_ne_empty (cs : List Char) (m : String)
    (h : findThreadId cs = some m) : m ≠ "" := by
  induction cs with
  | nil => simp [findThreadId] at h
  | cons c rest ih =>
    unfold findThreadId at h
    cases ha : threadIdAt (c :: rest) with
    | some u =>
      rw [ha] at h
      exact (Option.some.injEq u m).mp h ▸ threadIdAt_ne_empty (c :: rest) u ha
    | none => rw [ha] at h; exact ih h

theorem fallback_isSome_eq_truthy (st : ExtractState)
    (h : st.sessionId = none ∨ truthyO st.sessionId = true) :
    (fallbackSessionId st).isSome = truthyO (fallbackSessionId st) := by
  unfold fallbackSessionId
  by_cases ht : truthyO st.sessionId = true
  · cases hs : st.sessionId with
    | none => rw [hs] at ht; simp [truthyO] at ht
    | some j =>
      rw [hs] at ht
      rw [if_pos ht]
      simp only [truthyO] at ht ⊢
      simp [ht]
  · rw [if_neg ht]
    cases hf : findThreadId st.rawOutput.toList with
    | some m =>
      have : truthy (Json.str m) = true := by
        have hne := findThreadId_ne_empty _ _ hf
        simp [truthy, hne]
      simp [truthyO, this]
    | none =>
      rcases h with hn | htr
      · simp [hn, truthyO]
      · exact absurd htr ht

/-! ## Section 7: the claims -/

/-- Claim C1, counterexample.  The claim says a resume request with an
absent or empty sessionId or prompt fails with a missing-parameter
error before any subprocess is spawned, and that a start prompt must be
a non-empty string.  In the code runCodexResume performs no validation:
with sessionId equal to the empty string and prompt hi, a subprocess is
spawned with the empty string passed verbatim, and runCodexStart
likewise spawns with an empty prompt. -/
theorem claim_C1_counterexample :
    runCodexResume (some "") (some "hi")
        = PipelineStep.spawn ["exec", "--json", "resume", "", "hi"] none "Codex resume"
      ∧ runCodexStart ⟨some "", none, none, none, none, none⟩
        = PipelineStep.spawn ["exec", "", "--sandbox", "read-only", "--json"] none "Codex" :=
  ⟨rfl, rfl⟩

/-- Claim C1, amended: neither codex nor codex-reply validates its
parameters, and every such request spawns a subprocess.  A resume
request whose sessionId and prompt are strings, empty or not, spawns
with them passed verbatim; an absent sessionId or prompt is coerced by
the spawn layer to the literal string undefined and the child is
spawned all the same.  A start request likewise spawns for every
prompt, the empty string and the absent one included.  No
missing-parameter error exists on these paths. -/
theorem claim_C1_amended :
    ∀ (sid p : String) (c : Option String),
      runCodexResume (some sid) (some p)
          = PipelineStep.spawn ["exec", "--json", "resume", sid, p] none "Codex resume"
        ∧ runCodexResume none (some p)
          = PipelineStep.spawn ["exec", "--json", "resume", "undefined", p] none "Codex resume"
        ∧ runCodexResume (some sid) none
          = PipelineStep.spawn ["exec", "--json", "resume", sid, "undefined"] none "Codex resume"
        ∧ runCodexResume none none
          = PipelineStep.spawn ["exec", "--json", "resume", "undefined", "undefined"]
              none "Codex resume"
        ∧ runCodexStart ⟨some p, none, c, none, none, none⟩
          = PipelineStep.spawn (startArgv p c) c "Codex"
        ∧ runCodexStart ⟨none, none, c, none, none, none⟩
          = PipelineStep.spawn (startArgv "undefined" c) c "Codex" :=
  fun _ _ _ => ⟨rfl, rfl, rfl, rfl, rfl, rfl⟩

/-- Claim C4, counterexample.  The claim says any mode value outside
the enumerated set fails with an unknown-mode error naming the
offending value.  The empty string is outside the set, yet the code
treats it as a missing mode (JS falsiness) and rejects with the
requires-mode message, not the unknown-mode message naming it. -/
theorem claim_C4_counterexample :
    runCodexReview (some ⟨none, none, none, some "", none, none⟩)
        = PipelineStep.reject "codex-review requires mode"
      ∧ ("" : String) ∉ (["uncommitted", "base", "commit", "custom"] : List String)
      ∧ "codex-review requires mode" ≠ "Unknown review mode: " ++ "" :=
  ⟨rfl, by decide, by decide⟩

/-- Claim C4, amended: a missing mode and an empty-string mode both
fail with the missing-mode error; mode base with no base fails with
missing base; mode commit with no commit fails with missing commit;
mode custom with a prompt absent or empty after trimming fails with
missing prompt; any non-empty mode value outside the enumerated set
fails with the unknown-mode error naming the value.  All of these are
pre-spawn rejections, and a rejection makes the pipeline fail without
any spawn request. -/
theorem claim_C4_amended :
    ∀ (a : ToolArgs) (m : String),
      runCodexReview none = PipelineStep.reject "codex-review requires mode"
        ∧ (a.mode = none →
            runCodexReview (some a) = PipelineStep.reject "codex-review requires mode")
        ∧ (a.mode = some "" →
            runCodexReview (some a) = PipelineStep.reject "codex-review requires mode")
        ∧ (a.mode = some "base" → a.base = none →
            runCodexReview (some a) = PipelineStep.reject "mode=base requires base")
        ∧ (a.mode = some "commit" → a.commit = none →
            runCodexReview (some a) = PipelineStep.reject "mode=commit requires commit")
        ∧ (a.mode = some "custom" → (a.prompt = none ∨ jsTrim (a.prompt.getD "") = "") →
            runCodexReview (some a) = PipelineStep.reject "mode=custom requires prompt")
        ∧ (a.mode = some m → m ≠ "" →
            m ∉ (["uncommitted", "base", "commit", "custom"] : List String) →
            runCodexReview (some a) = PipelineStep.reject ("Unknown review mode: " ++ m))
        ∧ (∀ (msg : String) (w : ProcWorld),
            runCodexJsonl (PipelineStep.reject msg) w = Except.error msg
              ∧ ∀ (argv : List String) (c : Option String) (lb : String),
                  PipelineStep.reject msg ≠ PipelineStep.spawn argv c lb) := by
  intro a m
  refine ⟨rfl, ?_, ?_, ?_, ?_, ?_, ?_, ?_⟩
  · intro hm; simp [runCodexReview, hm]
  · intro hm; simp [runCodexReview, hm]
  · intro hm hb; simp [runCodexReview, hm, truthyS, hb]
  · intro hm hc; simp [runCodexReview, hm, truthyS, hc]
  · intro hm hp
    rcases hp with hp | hp
    · simp [runCodexReview, hm, hp]
    · cases hpv : a.prompt with
      | none => simp [runCodexReview, hm, hpv]
      | some pv =>
        rw [hpv] at hp
        simp only [Option.getD] at hp
        simp [runCodexReview, hm, hpv, hp]
  · intro hm hne hnotin
    have h1 : m ≠ "uncommitted" := by intro h; rw [h] at hnotin; simp at hnotin
    have h2 : m ≠ "base" := by intro h; rw [h] at hnotin; simp at hnotin
    have h3 : m ≠ "commit" := by intro h; rw [h] at hnotin; simp at hnotin
    have h4 : m ≠ "custom" := by intro h; rw [h] at hnotin; simp at hnotin
    simp [runCodexReview, hm, hne, h1, h2, h3, h4]
  · intro msg w
    exact ⟨rfl, fun argv c lb h => PipelineStep.noConfusion h⟩

/-- Claim C4, witness: the amended theorem applied to a request with
mode base and no base field, and to one with the unrecognized non-empty
mode banana. -/
theorem claim_C4_witness :
    runCodexReview (some ⟨none, none, none, some "base", none, none⟩)
        = PipelineStep.reject "mode=base requires base"
      ∧ runCodexReview (some ⟨none, none, none, some "banana", none, none⟩)
        = PipelineStep.reject ("Unknown review mode: " ++ "banana") :=
  ⟨(claim_C4_amended ⟨none, none, none, some "base", none, none⟩ "banana").2.2.2.1 rfl rfl,
   (claim_C4_amended ⟨none, none, none, some "banana", none, none⟩ "banana").2.2.2.2.2.2.1
     rfl (by decide) (by decide)⟩

/-- Claim C7, counterexample.  The claim says the spawned start vector
contains the -C pair if and only if a working-directory parameter was
supplied.  Supplying the empty string is supplying a working-directory
parameter, yet JS falsiness makes runCodexStart omit the -C pair. -/
theorem claim_C7_counterexample :
    runCodexStart ⟨some "hi", none, some "", none, none, none⟩
        = PipelineStep.spawn ["exec", "hi", "--sandbox", "read-only", "--json"]
            (some "") "Codex"
      ∧ "-C" ∉ (["exec", "hi", "--sandbox", "read-only", "--json"] : List String) :=
  ⟨rfl, by decide⟩

/-- Claim C7, amended: every spawned start vector contains the adjacent
pair --sandbox read-only and the flag --json; it contains the adjacent
pair -C dir exactly when a non-empty working directory dir was supplied
(an empty string is treated as absent). -/
theorem claim_C7_amended :
    ∀ (p : String) (cwd : Option String),
      runCodexStart ⟨some p, none, cwd, none, none, none⟩
          = PipelineStep.spawn (startArgv p cwd) cwd "Codex"
        ∧ ((startArgv p cwd)[2]? = some "--sandbox"
            ∧ (startArgv p cwd)[3]? = some "read-only")
        ∧ "--json" ∈ startArgv p cwd
        ∧ (truthyS cwd = true →
            (startArgv p cwd)[4]? = some "-C"
              ∧ (startArgv p cwd)[5]? = some (cwd.getD ""))
        ∧ (p ≠ "-C" → truthyS cwd = false → "-C" ∉ startArgv p cwd) := by
  intro p cwd
  by_cases hc : truthyS cwd = true
  · refine ⟨rfl, ?_, ?_, ?_, ?_⟩
    · constructor <;> simp [startArgv, hc]
    · simp [startArgv, hc]
    · intro _; constructor <;> simp [startArgv, hc]
    · intro _ hcf; rw [hc] at hcf; exact absurd hcf (by decide)
  · have hcf : truthyS cwd = false := by
      cases htv : truthyS cwd
      · rfl
      · exact absurd htv hc
    refine ⟨rfl, ?_, ?_, ?_, ?_⟩
    · constructor <;> simp [startArgv, hcf]
    · simp [startArgv, hcf]
    · intro hct; rw [hct] at hcf; cases hcf
    · intro hp _
      have hp2 : "-C" ≠ p := fun hq => hp hq.symm
      simp [startArgv, hcf, hp2]

/-- Claim C7, witness: the amended theorem applied at prompt hi with
working directory /tmp (the -C pair is present) and the counterexample
facts at an absent working directory are covered by the membership
conjuncts. -/
theorem claim_C7_witness :
    (startArgv "hi" (some "/tmp"))[4]? = some "-C"
      ∧ (startArgv "hi" (some "/tmp"))[5]? = some "/tmp"
      ∧ "-C" ∉ startArgv "hello" none :=
  ⟨((claim_C7_amended "hi" (some "/tmp")).2.2.2.1 (by decide)).1,
   ((claim_C7_amended "hi" (some "/tmp")).2.2.2.1 (by decide)).2,
   (claim_C7_amended "hello" none).2.2.2.2 (by decide) (by decide)⟩

/-- In any argument vector that starts with the common review prefix,
the --json flag sits immediately before the review subcommand token. -/
theorem reviewPre_json_before_review (cwd : Option String) (tail : List String) :
    ∃ i, (reviewPre cwd ++ tail)[i]? = some "--json"
      ∧ (reviewPre cwd ++ tail)[i + 1]? = some "review" := by
  by_cases hc : truthyS cwd = true
  · exact ⟨3, by simp [reviewPre, hc], by simp [reviewPre, hc]⟩
  · have hcf : truthyS cwd = false := by
      cases htv : truthyS cwd
      · rfl
      · exact absurd htv hc
    exact ⟨1, by simp [reviewPre, hcf], by simp [reviewPre, hcf]⟩

/-- Claim C8: in every review argument vector that reaches the spawn,
the --json flag appears strictly before the review subcommand token
(in fact immediately before it). -/
theorem claim_C8 :
    ∀ (args : Option ToolArgs) (argv : List String) (cwd : Option String) (label : String),
      runCodexReview args = PipelineStep.spawn argv cwd label →
      ∃ i, argv[i]? = some "--json" ∧ argv[i + 1]? = some "review" := by
  intro args argv cwd label h
  rcases args with _ | a
  · exact absurd h (by simp [runCodexReview])
  · rcases hm : a.mode with _ | m
    · rw [runCodexReview, hm] at h
      exact absurd h (by simp)
    · rw [runCodexReview, hm] at h
      dsimp only at h
      by_cases h0 : m = ""
      · rw [if_pos h0] at h; exact absurd h (by simp)
      · rw [if_neg h0] at h
        by_cases h1 : m = "uncommitted"
        · rw [if_pos h1] at h
          injection h with ha _ _
          rw [← ha]
          exact reviewPre_json_before_review a.cwd _
        · rw [if_neg h1] at h
          by_cases h2 : m = "base"
          · rw [if_pos h2] at h
            by_cases hb : truthyS a.base = true
            · rw [if_pos hb] at h
              injection h with ha _ _
              rw [← ha]
              exact reviewPre_json_before_review a.cwd _
            · rw [if_neg hb] at h; exact absurd h (by simp)
          · rw [if_neg h2] at h
            by_cases h3 : m = "commit"
            · rw [if_pos h3] at h
              by_cases hcm : truthyS a.commit = true
              · rw [if_pos hcm] at h
                injection h with ha _ _
                rw [← ha]
                exact reviewPre_json_before_review a.cwd _
              · rw [if_neg hcm] at h; exact absurd h (by simp)
            · rw [if_neg h3] at h
              by_cases h4 : m = "custom"
              · rw [if_pos h4] at h
                rcases hp : a.prompt with _ | pv
                · rw [hp] at h; exact absurd h (by simp)
                · rw [hp] at h
                  dsimp only at h
                  by_cases ht : jsTrim pv = ""
                  · rw [if_pos ht] at h; exact absurd h (by simp)
                  · rw [if_neg ht] at h
                    injection h with ha _ _
                    rw [← ha]
                    exact reviewPre_json_before_review a.cwd _
              · rw [if_neg h4] at h; exact absurd h (by simp)

/-- Claim C8, witness: the theorem applied to a concrete uncommitted
review request with a working directory. -/
theorem claim_C8_witness :
    ∃ i, (reviewPre (some "/repo") ++ ["--uncommitted"])[i]? = some "--json"
      ∧ (reviewPre (some "/repo") ++ ["--uncommitted"])[i + 1]? = some "review" :=
  claim_C8 (some ⟨none, none, some "/repo", some "uncommitted", none, none⟩)
    (reviewPre (some "/repo") ++ ["--uncommitted"]) (some "/repo") "Codex review" rfl

/-- Claim C10: every resume spawn uses exactly the argument vector
exec --json resume sessionId prompt, passes no cwd option, and the
child therefore runs in the server process working directory; the
builder adds neither the sandbox pair nor the -C flag (so neither token
occurs unless the caller-supplied sessionId or prompt happens to equal
it). -/
theorem claim_C10 :
    ∀ (sid p serverCwd : String),
      runCodexResume (some sid) (some p)
          = PipelineStep.spawn ["exec", "--json", "resume", sid, p] none "Codex resume"
        ∧ effectiveCwd none serverCwd = serverCwd
        ∧ (sid ≠ "--sandbox" → p ≠ "--sandbox" →
            "--sandbox" ∉ (["exec", "--json", "resume", sid, p] : List String))
        ∧ (sid ≠ "-C" → p ≠ "-C" →
            "-C" ∉ (["exec", "--json", "resume", sid, p] : List String)) := by
  intro sid p serverCwd
  refine ⟨rfl, rfl, ?_, ?_⟩
  · intro hs hp
    have hs2 : "--sandbox" ≠ sid := fun hq => hs hq.symm
    have hp2 : "--sandbox" ≠ p := fun hq => hp hq.symm
    simp [hs2, hp2]
  · intro hs hp
    have hs2 : "-C" ≠ sid := fun hq => hs hq.symm
    have hp2 : "-C" ≠ p := fun hq => hp hq.symm
    simp [hs2, hp2]

/-- Claim C10, witness: the theorem applied at a concrete session id,
prompt and server working directory. -/
theorem claim_C10_witness :
    runCodexResume (some "0199-abc") (some "hello")
        = PipelineStep.spawn ["exec", "--json", "resume", "0199-abc", "hello"]
            none "Codex resume"
      ∧ effectiveCwd none "/srv" = "/srv"
      ∧ "--sandbox" ∉ (["exec", "--json", "resume", "0199-abc", "hello"] : List String) :=
  ⟨(claim_C10 "0199-abc" "hello" "/srv").1,
   (claim_C10 "0199-abc" "hello" "/srv").2.1,
   (claim_C10 "0199-abc" "hello" "/srv").2.2.1 (by decide) (by decide)⟩

/-- Claim C2: a subprocess run resolves successfully exactly when the
exit code is zero and a truthy (hence non-null) session id was
extracted (structured or fallback); a non-zero or null exit code
rejects naming the code even when an id is extractable; a zero exit
with no extractable id rejects with the missing-session-id error.  For
states reached by the extractor a truthy id and a non-null id
coincide. -/
theorem claim_C2 :
    ∀ (label : String) (code : Option Int) (lines : List String),
      ((closeOutcome label code (processLines lines)).isOk = true
          ↔ code = some 0 ∧ truthyO (fallbackSessionId (processLines lines)) = true)
        ∧ (fallbackSessionId (processLines lines)).isSome
          = truthyO (fallbackSessionId (processLines lines))
        ∧ (code ≠ some 0 →
            closeOutcome label code (processLines lines)
              = Except.error (label ++ " exited with code " ++ jsCodeStr code))
        ∧ (code = some 0 → truthyO (fallbackSessionId (processLines lines)) = false →
            closeOutcome label code (processLines lines)
              = Except.error ("Could not extract session ID from " ++ label ++ " output")) := by
  intro label code lines
  refine ⟨?_, fallback_isSome_eq_truthy _ (sessionId_inv lines), ?_, ?_⟩
  · unfold closeOutcome
    by_cases hcode : code = some 0
    · rw [if_neg (by simp [hcode])]
      constructor
      · intro hok
        refine ⟨hcode, ?_⟩
        cases hf : fallbackSessionId (processLines lines) with
        | none => rw [hf] at hok; simp [Except.isOk, Except.toBool] at hok
        | some sid =>
          rw [hf] at hok
          dsimp only at hok
          by_cases ht : truthy sid = true
          · simpa [truthyO] using ht
          · rw [if_neg ht] at hok; simp [Except.isOk, Except.toBool] at hok
      · intro hand
        cases hf : fallbackSessionId (processLines lines) with
        | none => rw [hf] at hand; simp [truthyO] at hand
        | some sid =>
          rw [hf] at hand
          have ht : truthy sid = true := by simpa [truthyO] using hand.2
          dsimp only
          rw [if_pos ht]
          simp [Except.isOk, Except.toBool]
    · rw [if_pos (by simpa using hcode)]
      constructor
      · intro hok; simp [Except.isOk, Except.toBool] at hok
      · intro hand; exact absurd hand.1 hcode
  · intro hne
    unfold closeOutcome
    rw [if_pos (by simpa using hne)]
  · intro hz hfalse
    unfold closeOutcome
    rw [if_neg (by simp [hz])]
    cases hf : fallbackSessionId (processLines lines) with
    | none => rfl
    | some sid =>
      rw [hf] at hfalse
      have : truthy sid = false := by simpa [truthyO] using hfalse
      dsimp only
      rw [if_neg (by simp [this])]

/-- Claim C2, witness: the theorem applied at exit code 1 (failure
naming the code despite an extractable id in the transcript) and at
exit code 0 with an empty transcript (missing-session-id failure). -/
theorem claim_C2_witness :
    closeOutcome "Codex" (some 1)
        (processLines ["thread_id\":\"0199aaaa-bbbb-7ccc-8ddd-eeeeffff0000"])
      = Except.error ("Codex" ++ " exited with code " ++ jsCodeStr (some 1))
    ∧ closeOutcome "Codex" (some 0) (processLines [])
      = Except.error ("Could not extract session ID from " ++ "Codex" ++ " output") :=
  ⟨(claim_C2 "Codex" (some 1)
      ["thread_id\":\"0199aaaa-bbbb-7ccc-8ddd-eeeeffff0000"]).2.2.1 (by decide),
   (claim_C2 "Codex" (some 0) []).2.2.2 rfl (by decide)⟩

/-- Claim C5: the display text of a finished stream is the last truthy
agent message captured from completed-item records, later captures
overwriting earlier ones; when no such message was captured it is the
full raw transcript, every line verbatim and in order, each followed by
a newline. -/
theorem claim_C5 :
    ∀ (lines : List String),
      displayText (processLines lines)
          = (match lastAgentMessage lines with
             | some t => t
             | none => Json.str (rawConcat lines))
        ∧ (processLines lines).rawOutput = rawConcat lines
        ∧ (processLines lines).finalMessage
          = (match lastAgentMessage lines with
             | some t => t
             | none => Json.str "") := by
  intro lines
  have hraw : (processLines lines).rawOutput = rawConcat lines := by
    have := foldl_rawOutput lines initExtract
    simpa [processLines, initExtract] using this
  have hfm : (processLines lines).finalMessage
      = (match lastAgentMessage lines with
         | some t => t
         | none => Json.str "") := by
    have := foldl_finalMessage lines initExtract
    simpa [processLines, initExtract] using this
  refine ⟨?_, hraw, hfm⟩
  unfold displayText
  rw [hfm, hraw]
  cases hl : lastAgentMessage lines with
  | some t =>
    have ht := lastAgentMessage_truthy lines t hl
    rw [if_pos ht]
  | none =>
    rw [if_neg (by simp [truthy])]

/-- Claim C6: when structured parsing captured no session id, the close
handler runs the single fallback scan of the raw transcript and uses
its first match; concretely, a transcript line that is not valid JSON
but contains the literal thread_id token, a quote-colon-quote run and a
valid 36-character hyphenated lowercase-hex UUID makes the run resolve
with exactly that UUID as the session id. -/
theorem claim_C6 :
    (∀ (lines : List String),
        (processLines lines).sessionId = none →
        fallbackSessionId (processLines lines)
          = (findThreadId (processLines lines).rawOutput.toList).map Json.str)
      ∧ parseJson fallbackProbe = none
      ∧ (processLines [fallbackProbe]).sessionId = none
      ∧ findThreadId (fallbackProbe ++ "\n").toList = some probeUuid
      ∧ closeOutcome "Codex" (some 0) (processLines [fallbackProbe])
        = Except.ok ⟨Json.str probeUuid, Json.str (fallbackProbe ++ "\n")⟩ := by
  refine ⟨?_, by decide, by decide, by decide, by decide⟩
  intro lines h
  unfold fallbackSessionId
  rw [h]
  rw [if_neg (by simp [truthyO])]
  cases hf : findThreadId (processLines lines).rawOutput.toList <;> simp

/-- Claim C6, witness: the general fallback equation applied to the
empty stream, whose structured capture is none. -/
theorem claim_C6_witness :
    fallbackSessionId (processLines [])
      = (findThreadId (processLines []).rawOutput.toList).map Json.str :=
  claim_C6.1 [] rfl

/-- Every response handleToolCall emits carries the id of the request
it answers. -/
theorem handleToolCall_rid (id : Option Int) (p : CallParams) (w : ProcWorld) :
    (handleToolCall id p w).rid = id := by
  unfold handleToolCall
  cases h : toolCallRun p w with
  | none => rfl
  | some r =>
    cases r with
    | ok v => rfl
    | error e => rfl

/-- Claim C3, counterexample.  The claim says every frame with an id
gets exactly one response, for every method and every shape of params.
A tools/call frame whose params field is absent makes the destructuring
in handleToolCall throw; the outer catch only logs, so zero responses
are emitted.  An initialized frame with an id also gets zero
responses. -/
theorem claim_C3_counterexample :
    (handleLine [] ⟨some 1, "tools/call", none⟩ ⟨[], ExitEvent.closed (some 0)⟩ 0).2 = []
      ∧ (handleLine [] ⟨some 2, "initialized", some ⟨none, none⟩⟩
          ⟨[], ExitEvent.closed (some 0)⟩ 0).2 = [] :=
  ⟨rfl, rfl⟩

/-- Claim C3, amended: the dispatcher never emits more than one
response per frame, every emitted response carries the id of its frame,
and it emits exactly one response for every method except initialized
and except a tools/call whose params field is absent (those two cases
emit zero responses). -/
theorem claim_C3_amended :
    ∀ (s : SessionMap) (f : RpcFrame) (w : ProcWorld) (t : Nat),
      (handleLine s f w t).2.length ≤ 1
        ∧ (∀ r ∈ (handleLine s f w t).2, r.rid = f.id)
        ∧ (f.method ≠ "initialized" → (f.method = "tools/call" → f.params ≠ none) →
            (handleLine s f w t).2.length = 1) := by
  intro s f w t
  rcases f with ⟨fid, m, ps⟩
  by_cases h1 : m = "initialize"
  · refine ⟨by simp [handleLine, h1], ?_, by intro _ _; simp [handleLine, h1]⟩
    intro r hr
    simp [handleLine, h1] at hr
    rw [hr]
    rfl
  · by_cases h2 : m = "initialized"
    · refine ⟨by simp [handleLine, h1, h2], ?_, ?_⟩
      · intro r hr
        simp [handleLine, h1, h2] at hr
      · intro hni _
        exact absurd h2 hni
    · by_cases h3 : m = "tools/list"
      · refine ⟨by simp [handleLine, h1, h2, h3], ?_,
          by intro _ _; simp [handleLine, h1, h2, h3]⟩
        intro r hr
        simp [handleLine, h1, h2, h3] at hr
        rw [hr]
        rfl
      · by_cases h4 : m = "tools/call"
        · cases ps with
          | none =>
            refine ⟨by simp [handleLine, h1, h2, h3, h4], ?_, ?_⟩
            · intro r hr
              simp [handleLine, h1, h2, h3, h4] at hr
            · intro _ hps
              exact absurd rfl (hps h4)
          | some p =>
            refine ⟨by simp [handleLine, h1, h2, h3, h4], ?_,
              by intro _ _; simp [handleLine, h1, h2, h3, h4]⟩
            intro r hr
            simp [handleLine, h1, h2, h3, h4] at hr
            rw [hr]
            exact handleToolCall_rid fid p w
        · refine ⟨by simp [handleLine, h1, h2, h3, h4], ?_,
            by intro _ _; simp [handleLine, h1, h2, h3, h4]⟩
          intro r hr
          simp [handleLine, h1, h2, h3, h4] at hr
          rw [hr]
          rfl

/-- Claim C3, witness: the amended theorem applied to a concrete
initialize frame and to a concrete tools/call frame with params
present. -/
theorem claim_C3_witness :
    (handleLine [] ⟨some 5, "initialize", none⟩ ⟨[], ExitEvent.closed (some 0)⟩ 0).2.length = 1
      ∧ (handleLine [] ⟨some 6, "tools/call", some ⟨some "codex", none⟩⟩
          ⟨[], ExitEvent.closed (some 0)⟩ 0).2.length = 1 :=
  ⟨(claim_C3_amended [] ⟨some 5, "initialize", none⟩ ⟨[], ExitEvent.closed (some 0)⟩ 0).2.2
      (by decide) (by decide),
   (claim_C3_amended [] ⟨some 6, "tools/call", some ⟨some "codex", none⟩⟩
      ⟨[], ExitEvent.closed (some 0)⟩ 0).2.2 (by decide) (by decide)⟩

/-- Registry membership as a proposition: some record is bound to the
key. -/
theorem mapHasKey_iff (m : SessionMap) (k : Json) :
    mapHasKey m k = true ↔ ∃ v, (k, v) ∈ m := by
  unfold mapHasKey
  rw [List.any_eq_true]
  constructor
  · rintro ⟨kv, hmem, hdec⟩
    have hk : kv.1 = k := of_decide_eq_true hdec
    exact ⟨kv.2, by rw [← hk]; simpa using hmem⟩
  · rintro ⟨v, hmem⟩
    exact ⟨(k, v), hmem, by simp⟩

/-- Keys of the registry after a Map.set: the inserted key together
with all previous keys. -/
theorem mem_keys_mapSet (m : SessionMap) (k0 : Json) (v0 : SessionRecord) (k : Json) :
    (∃ v, (k, v) ∈ mapSet m k0 v0) ↔ (k = k0 ∨ ∃ v, (k, v) ∈ m) := by
  induction m with
  | nil => simp [mapSet]
  | cons kv rest ih =>
    simp only [mapSet]
    by_cases hk : kv.1 = k0
    · rw [if_pos hk]
      constructor
      · rintro ⟨v, hv⟩
        rcases List.mem_cons.mp hv with h | h
        · exact Or.inl (congrArg Prod.fst h)
        · exact Or.inr ⟨v, List.mem_cons_of_mem kv h⟩
      · rintro (h | ⟨v, hv⟩)
        · exact ⟨v0, by rw [h]; exact List.mem_cons_self _ _⟩
        · rcases List.mem_cons.mp hv with h2 | h2
          · refine ⟨v0, ?_⟩
            have hkk : k = kv.1 := congrArg Prod.fst h2
            have : k = k0 := by rw [hkk]; exact hk
            rw [this]
            exact List.mem_cons_self _ _
          · exact ⟨v, List.mem_cons_of_mem _ h2⟩
    · rw [if_neg hk]
      constructor
      · rintro ⟨v, hv⟩
        rcases List.mem_cons.mp hv with h | h
        · exact Or.inr ⟨v, by rw [h]; exact List.mem_cons_self _ _⟩
        · rcases ih.mp ⟨v, h⟩ with h2 | ⟨v2, h2⟩
          · exact Or.inl h2
          · exact Or.inr ⟨v2, List.mem_cons_of_mem _ h2⟩
      · rintro (h | ⟨v, hv⟩)
        · rcases ih.mpr (Or.inl h) with ⟨v, hv⟩
          exact ⟨v, List.mem_cons_of_mem _ hv⟩
        · rcases List.mem_cons.mp hv with h2 | h2
          · exact ⟨v, by rw [h2]; exact List.mem_cons_self _ _⟩
          · rcases ih.mpr (Or.inr ⟨v, h2⟩) with ⟨v2, hv2⟩
            exact ⟨v2, List.mem_cons_of_mem _ hv2⟩

/-- The registry after one dispatched frame equals the old registry,
except that a successful codex start inserts its session id. -/
theorem handleLine_sessions (s : SessionMap) (f : RpcFrame) (w : ProcWorld) (t : Nat) :
    (handleLine s f w t).1
      = match startInsertion f w t with
        | some kv => mapSet s kv.1 kv.2
        | none => s := by
  rcases f with ⟨fid, m, ps⟩
  by_cases h1 : m = "initialize"
  · simp [handleLine, startInsertion, h1]
  · by_cases h2 : m = "initialized"
    · simp [handleLine, startInsertion, h1, h2]
    · by_cases h3 : m = "tools/list"
      · simp [handleLine, startInsertion, h1, h2, h3]
      · by_cases h4 : m = "tools/call"
        · cases ps with
          | none => simp [handleLine, startInsertion, h1, h2, h3, h4]
          | some p =>
            rcases p with ⟨pn, pa⟩
            cases pn with
            | none => simp [handleLine, startInsertion, sessionsAfterToolCall, h1, h2, h3, h4]
            | some n =>
              cases pa with
              | none => simp [handleLine, startInsertion, sessionsAfterToolCall, h1, h2, h3, h4]
              | some a =>
                by_cases hn : n = "codex"
                · cases hr : runCodexJsonl (runCodexStart a) w with
                  | ok r =>
                    simp [handleLine, startInsertion, sessionsAfterToolCall,
                      h1, h2, h3, h4, hn, hr]
                  | error e =>
                    simp [handleLine, startInsertion, sessionsAfterToolCall,
                      h1, h2, h3, h4, hn, hr]
                · simp [handleLine, startInsertion, sessionsAfterToolCall,
                    h1, h2, h3, h4, hn]
        · simp [handleLine, startInsertion, h1, h2, h3, h4]

/-- A key is in the registry after a trace extending an initial
registry exactly when it was there initially or some frame of the trace
inserted it. -/
theorem foldl_hasKey (es : List TraceEvent) (k : Json) :
    ∀ s : SessionMap,
      mapHasKey (List.foldl (fun s2 e => (handleLine s2 e.frame e.world e.now).1) s es) k = true
        ↔ (mapHasKey s k = true
            ∨ ∃ e ∈ es, ∃ v, startInsertion e.frame e.world e.now = some (k, v)) := by
  induction es with
  | nil => intro s; simp
  | cons e rest ih =>
    intro s
    simp only [List.foldl_cons]
    rw [ih, handleLine_sessions]
    cases hins : startInsertion e.frame e.world e.now with
    | none =>
      dsimp only
      simp only [List.mem_cons]
      constructor
      · rintro (h | h)
        · exact Or.inl h
        · rcases h with ⟨e2, he2, hv⟩
          exact Or.inr ⟨e2, Or.inr he2, hv⟩
      · rintro (h | ⟨e2, he2, hv⟩)
        · exact Or.inl h
        · rcases he2 with he2 | he2
          · rw [he2] at hv
            rw [hins] at hv
            rcases hv with ⟨v, hv⟩
            exact absurd hv (by simp)
          · exact Or.inr ⟨e2, he2, hv⟩
    | some kv =>
      dsimp only
      rw [mapHasKey_iff, mem_keys_mapSet, ← mapHasKey_iff]
      simp only [List.mem_cons]
      constructor
      · rintro ((h | h) | h)
        · refine Or.inr ⟨e, Or.inl rfl, kv.2, ?_⟩
          rw [hins, h]
        · exact Or.inl h
        · rcases h with ⟨e2, he2, hv⟩
          exact Or.inr ⟨e2, Or.inr he2, hv⟩
      · rintro (h | ⟨e2, he2, hv⟩)
        · exact Or.inl (Or.inr h)
        · rcases he2 with he2 | he2
          · rw [he2, hins] at hv
            rcases hv with ⟨v, hv⟩
            have : kv = (k, v) := by injection hv
            exact Or.inl (Or.inl (by rw [this]))
          · exact Or.inr ⟨e2, he2, hv⟩

/-- Claim C9: the registry changes only through the insertion performed
by a successful codex start (all other frames, including codex-reply
and codex-review calls, leave it unchanged); keys are never removed;
and starting from the empty boot registry, a key is present exactly
when some frame of the trace was a successful start that produced it. -/
theorem claim_C9 :
    (∀ (s : SessionMap) (f : RpcFrame) (w : ProcWorld) (t : Nat),
        (handleLine s f w t).1
          = match startInsertion f w t with
            | some kv => mapSet s kv.1 kv.2
            | none => s)
      ∧ (∀ (s : SessionMap) (f : RpcFrame) (w : ProcWorld) (t : Nat) (k : Json),
          mapHasKey s k = true → mapHasKey (handleLine s f w t).1 k = true)
      ∧ (∀ (es : List TraceEvent) (k : Json),
          mapHasKey (runTrace es) k = true
            ↔ ∃ e ∈ es, ∃ v, startInsertion e.frame e.world e.now = some (k, v))
      ∧ (∀ (s : SessionMap) (p : CallParams) (w : ProcWorld) (t : Nat),
          (p.name = some "codex-reply" ∨ p.name = some "codex-review") →
          sessionsAfterToolCall s p w t = s) := by
  refine ⟨handleLine_sessions, ?_, ?_, ?_⟩
  · intro s f w t k h
    rw [handleLine_sessions]
    cases hins : startInsertion f w t with
    | none => exact h
    | some kv =>
      rw [mapHasKey_iff, mem_keys_mapSet]
      exact Or.inr ((mapHasKey_iff s k).mp h)
  · intro es k
    have := foldl_hasKey es k []
    rw [runTrace] at *
    rw [this]
    simp [mapHasKey]
  · intro s p w t hp
    rcases p with ⟨pn, pa⟩
    dsimp only at hp
    rcases hp with hp | hp <;> subst hp <;> cases pa <;> simp [sessionsAfterToolCall]

/-- Claim C9, witness: the no-removal conjunct applied to a concrete
registry and an initialize frame, and the resume conjunct applied to a
concrete codex-reply call. -/
theorem claim_C9_witness :
    mapHasKey (handleLine [(Json.str "a", ⟨0, none⟩)] ⟨some 1, "initialize", none⟩
        ⟨[], ExitEvent.closed (some 0)⟩ 0).1 (Json.str "a") = true
      ∧ sessionsAfterToolCall [(Json.str "a", ⟨0, none⟩)]
          ⟨some "codex-reply", some noArgs⟩ ⟨[], ExitEvent.closed (some 0)⟩ 7
        = [(Json.str "a", ⟨0, none⟩)] :=
  ⟨claim_C9.2.1 [(Json.str "a", ⟨0, none⟩)] ⟨some 1, "initialize", none⟩
      ⟨[], ExitEvent.closed (some 0)⟩ 0 (Json.str "a") (by decide),
   claim_C9.2.2.2 [(Json.str "a", ⟨0, none⟩)] ⟨some "codex-reply", some noArgs⟩
      ⟨[], ExitEvent.closed (some 0)⟩ 7 (Or.inl rfl)⟩
